import Mathlib

/-!
# Verification of the View Assist menu manager and service facade

Shallow embedding of `custom_components/view_assist/menu_manager.py` and the
menu/timer service handlers of `custom_components/view_assist/services.py`.

Modelling conventions:
* A device's menu state is the triple (menu_active, menu_items, status_icons)
  that the manager reads back from the entity state store at the start of
  every operation (`MenuManager._get_or_create_state`).  We work in a closed
  world: the config entry and the entity state exist, and the store is only
  written by the manager itself, so the reconciled state at the start of an
  operation is exactly the state produced by the previous operation.
* `system_icons` is recomputed on reconciliation exactly as in
  `_get_or_create_state`: status icons that are neither configured menu items
  nor the literal icon "menu".
* Python `for` loops that conditionally append to / remove from a list are
  embedded as structural recursions (`appendMissingGo`, `appendSkipMenuGo`,
  `removeIconsGo`, `removeMenuIconsGo`), one per distinct loop body.
* `_update_entity_state` is only observed through whether a non-empty
  `changes` dict was handed to it (`wrote : Bool`); per-item timeout arming
  and cancelling are recorded as lists of (item, is_menu_item) keys.
* Items are already lists of strings; `_normalize_status_items` on a list of
  strings is the identity, and the `if not items` guard is the `items = []`
  test.
-/

/-- Modelled from the spec: `helpers.ensure_menu_button_at_end` is not under
`src/`.  Per the spec, "When `show_menu_button` is enabled, the toggle icon,
if present, must always be the last entry in status_icons", and the call
sites use it to (re)place the toggle icon; so it removes any "menu" entry
and appends a single "menu" at the end. -/
def ensure_menu_button_at_end (icons : List String) : List String :=
  icons.filter (fun i => decide (i ≠ "menu")) ++ ["menu"]

/-- Device configuration options consulted by the menu manager
(`CONF_ENABLE_MENU` and `CONF_SHOW_MENU_BUTTON`). -/
structure VAConfig where
  enable_menu : Bool
  show_menu_button : Bool
deriving Repr, DecidableEq

/-- The per-device menu state as reconciled from the state store in
`MenuManager._get_or_create_state` (fields `active`, `configured_items`,
`status_icons`; `system_icons` is derived, see `systemIcons`). -/
structure MenuState where
  active : Bool
  configured_items : List String
  status_icons : List String
deriving Repr, DecidableEq

/-- `system_icons` as recomputed on every reconciliation:
icons in `status_icons` that are not configured items and not "menu". -/
def systemIcons (s : MenuState) : List String :=
  s.status_icons.filter (fun i => decide (i ∉ s.configured_items ∧ i ≠ "menu"))

/-- The fresh state created when the entity has no stored attributes yet
(`MenuState(entity_id=entity_id)` with all defaults). -/
def freshMenuState : MenuState := ⟨false, [], []⟩

/-- The loop `for item in items: if item not in acc: acc.append(item)`,
together with the `changed` flag pattern used around it. -/
def appendMissingGo : List String → Bool → List String → List String × Bool
  | l, b, [] => (l, b)
  | l, b, item :: rest =>
      if item ∈ l then appendMissingGo l b rest
      else appendMissingGo (l ++ [item]) true rest

/-- The loop in the non-menu branch of `add_menu_item`:
`if item != "menu" and item not in acc: acc.append(item); changed = True`. -/
def appendSkipMenuGo : List String → Bool → List String → List String × Bool
  | l, b, [] => (l, b)
  | l, b, item :: rest =>
      if item ≠ "menu" ∧ item ∉ l then appendSkipMenuGo (l ++ [item]) true rest
      else appendSkipMenuGo l b rest

/-- The loop in the non-menu branch of `remove_menu_item`: skip "menu" when
the menu button is shown, otherwise remove the first occurrence and record
the change. -/
def removeIconsGo (btn : Bool) : List String → Bool → List String → List String × Bool
  | l, b, [] => (l, b)
  | l, b, item :: rest =>
      if item = "menu" ∧ btn = true then removeIconsGo btn l b rest
      else if item ∈ l then removeIconsGo btn (l.erase item) true rest
      else removeIconsGo btn l b rest

/-- The loop in the menu branch of `remove_menu_item`:
`if item in updated_icons and item in menu_state.configured_items:
updated_icons.remove(item)` — where `configured_items` has already been
replaced by the filtered list `conf2`. -/
def removeMenuIconsGo (conf2 : List String) : List String → List String → List String
  | l, [] => l
  | l, item :: rest =>
      if item ∈ l ∧ item ∈ conf2 then removeMenuIconsGo conf2 (l.erase item) rest
      else removeMenuIconsGo conf2 l rest

/-- `configured_items` after the current-view filter used by `toggle_menu`
(show branch) and `refresh_menu`: drop the view only when a view is known
and it is a configured item. -/
def viewFiltered (conf : List String) (view : Option String) : List String :=
  match view with
  | some v => if v ∈ conf then conf.filter (fun i => decide (i ≠ v)) else conf
  | none => conf

/-- Merge items into status icons and re-place the menu button when shown:
the `updated_icons` computation shared by the `toggle_menu` show branch, the
active menu branch of `add_menu_item`, and `refresh_menu`. -/
def mergeIconsEnsure (btn : Bool) (base items : List String) : List String :=
  if btn then ensure_menu_button_at_end (appendMissingGo base false items).1
  else (appendMissingGo base false items).1

/-- `updated_icons` in the hide branch of `toggle_menu`: keep custom
(non-menu, non-configured) icons, re-add missing system icons, append
"menu" when the button is shown and missing.  The `custom_icons`
comprehension is the same filter as the reconciled `system_icons`
(`systemIcons s`), so both occurrences below are that filter. -/
def toggleHideIcons (btn : Bool) (s : MenuState) : List String :=
  let custom := systemIcons s
  let u := (appendMissingGo custom false (systemIcons s)).1
  if btn ∧ "menu" ∉ u then u ++ ["menu"] else u

/-- `updated_icons` and `changed` in the non-menu branch of
`add_menu_item`: after the append loop, `ensure_menu_button_at_end` is run
and `changed` is unconditionally set to `True` whenever the menu button is
shown. -/
def addStatusIcons (btn : Bool) (status items : List String) : List String × Bool :=
  let u := appendSkipMenuGo status false items
  if btn then (ensure_menu_button_at_end u.1, true) else u

/-- `updated_icons` and `changed` in the non-menu branch of
`remove_menu_item`. -/
def removeStatusIcons (btn : Bool) (status items : List String) : List String × Bool :=
  let r := removeIconsGo btn status false items
  if btn ∧ "menu" ∉ r.1 then (r.1 ++ ["menu"], true) else r

/-- `updated_icons` in the active menu branch of `remove_menu_item`:
the (dead, see `removeMenuIconsGo`) removal loop followed by the
append-"menu"-if-missing step. -/
def removeMenuActiveIcons (btn : Bool) (status items conf2 : List String) : List String :=
  let u := removeMenuIconsGo conf2 status items
  if btn ∧ "menu" ∉ u then u ++ ["menu"] else u

/-- Result of one menu operation: the state written back (and cached) and
whether a non-empty `changes` dict was passed to `_update_entity_state`. -/
structure OpResult where
  state : MenuState
  wrote : Bool
deriving Repr, DecidableEq

/-- `MenuManager.toggle_menu(entity_id, show=None, timeout=None)`.
Returns without touching anything when the menu feature is disabled.
`shOpt = none` flips the current active flag. -/
def toggle_menu (cfg : VAConfig) (view : Option String) (s : MenuState)
    (shOpt : Option Bool) : OpResult :=
  if cfg.enable_menu then
    if shOpt.getD (!s.active) then
      let ci := viewFiltered s.configured_items view
      ⟨⟨true, ci, mergeIconsEnsure cfg.show_menu_button s.status_icons ci⟩, true⟩
    else
      ⟨⟨false, s.configured_items, toggleHideIcons cfg.show_menu_button s⟩, true⟩
  else ⟨s, false⟩

/-- Result of `add_menu_item`: besides the state and write flag, the list of
per-item timeouts armed at the end (`(item, is_menu_item)` keys, in items
order). -/
structure AddResult where
  state : MenuState
  wrote : Bool
  armed : List (String × Bool)
deriving Repr, DecidableEq

/-- `MenuManager.add_menu_item(entity_id, status_item, menu=False,
timeout=None)`. -/
def add_menu_item (cfg : VAConfig) (s : MenuState) (items : List String)
    (menu : Bool) (timeout : Option Int) : AddResult :=
  if items = [] then ⟨s, false, []⟩
  else
    let armed := if timeout.isSome then items.map (fun i => (i, menu)) else []
    if menu then
      let r := appendMissingGo s.configured_items false items
      if r.2 then
        if s.active then
          ⟨⟨s.active, r.1, mergeIconsEnsure cfg.show_menu_button s.status_icons items⟩,
            true, armed⟩
        else ⟨⟨s.active, r.1, s.status_icons⟩, true, armed⟩
      else ⟨s, false, armed⟩
    else
      let r := addStatusIcons cfg.show_menu_button s.status_icons items
      if r.2 then ⟨⟨s.active, s.configured_items, r.1⟩, true, armed⟩
      else ⟨s, false, armed⟩

/-- Result of `remove_menu_item`: the per-item timeouts cancelled at the end
(`_cancel_item_timeout` runs for every item, with the `menu` flag). -/
structure RemoveResult where
  state : MenuState
  wrote : Bool
  cancelled : List (String × Bool)
deriving Repr, DecidableEq

/-- `MenuManager.remove_menu_item(entity_id, status_item, menu=False)`. -/
def remove_menu_item (cfg : VAConfig) (s : MenuState) (items : List String)
    (menu : Bool) : RemoveResult :=
  if items = [] then ⟨s, false, []⟩
  else
    let cancelled := items.map (fun i => (i, menu))
    if menu then
      let conf2 := s.configured_items.filter (fun i => decide (i ∉ items))
      if conf2 = s.configured_items then ⟨s, false, cancelled⟩
      else if s.active then
        ⟨⟨s.active, conf2,
            removeMenuActiveIcons cfg.show_menu_button s.status_icons items conf2⟩,
          true, cancelled⟩
      else ⟨⟨s.active, conf2, s.status_icons⟩, true, cancelled⟩
    else
      let r := removeStatusIcons cfg.show_menu_button s.status_icons items
      if r.2 then ⟨⟨s.active, s.configured_items, r.1⟩, true, cancelled⟩
      else ⟨s, false, cancelled⟩

/-- `MenuManager.refresh_menu(entity_id)`: a no-op when the menu is not
active; otherwise re-derive the configured items (excluding the current
view) and rebuild status icons from the non-menu icons. -/
def refresh_menu (cfg : VAConfig) (view : Option String) (s : MenuState) : OpResult :=
  if s.active then
    let nonMenu := s.status_icons.filter (fun i => decide (i ∉ s.configured_items ∧ i ≠ "menu"))
    let ci := viewFiltered s.configured_items view
    ⟨⟨true, ci, mergeIconsEnsure cfg.show_menu_button nonMenu ci⟩, true⟩
  else ⟨s, false⟩

/-- One externally triggered menu operation on a device (the view argument
carries the display's current view at the moment of the call). -/
inductive MenuOp where
  | toggle (shOpt : Option Bool) (view : Option String) : MenuOp
  | add (items : List String) (menu : Bool) (timeout : Option Int) : MenuOp
  | remove (items : List String) (menu : Bool) : MenuOp
  | refresh (view : Option String) : MenuOp
deriving Repr

/-- Apply one menu operation to the device state. -/
def applyOp (cfg : VAConfig) (s : MenuState) : MenuOp → MenuState
  | .toggle shOpt view => (toggle_menu cfg view s shOpt).state
  | .add items m t => (add_menu_item cfg s items m t).state
  | .remove items m => (remove_menu_item cfg s items m).state
  | .refresh view => (refresh_menu cfg view s).state

/-- Apply a sequence of menu operations to the device state. -/
def applyOps (cfg : VAConfig) (s : MenuState) (ops : List MenuOp) : MenuState :=
  ops.foldl (applyOp cfg) s

/-!
## Timeout task bookkeeping (`_setup_timeout`, `_cancel_timeout`,
`_setup_item_timeout`, `_cancel_item_timeout`)

A deferred task is tri-state: created pending, and transitions once to
fired (the sleep elapsed and the callback ran) or cancelled.  We model all
tasks ever created for one device as an arena (a list indexed by creation
order); the `MenuState.menu_timeout` and `MenuState.item_timeouts` fields
hold indices into the arena.
-/

/-- Status of an `asyncio.Task` created for a timeout. -/
inductive TaskStatus where
  | pending : TaskStatus
  | fired : TaskStatus
  | cancelled : TaskStatus
deriving Repr, DecidableEq

/-- `task.done()`: true once fired or cancelled. -/
def TaskStatus.isDone : TaskStatus → Bool
  | .pending => false
  | _ => true

/-- A timeout key: the device's single menu auto-close timeout, or a
per-item key `(menu_item, is_menu_item)` (the code's `"menu_" + item` /
`"status_" + item` dictionary keys). -/
inductive TKey where
  | menuKey : TKey
  | itemKey : String → Bool → TKey
deriving Repr, DecidableEq

/-- Lookup task `i` in the arena. -/
def getTask : List (TKey × TaskStatus) → Nat → Option (TKey × TaskStatus)
  | [], _ => none
  | t :: _, 0 => some t
  | _ :: ts, n + 1 => getTask ts n

/-- Overwrite the status of task `i` (keeping its key). -/
def setTask : List (TKey × TaskStatus) → Nat → TaskStatus → List (TKey × TaskStatus)
  | [], _, _ => []
  | t :: ts, 0, st => (t.1, st) :: ts
  | t :: ts, n + 1, st => t :: setTask ts n st

/-- `task.cancel()` guarded by `not task.done()`: a pending task becomes
cancelled, a done task is left alone (idempotent, never raises). -/
def cancelTask (tasks : List (TKey × TaskStatus)) (i : Nat) : List (TKey × TaskStatus) :=
  match getTask tasks i with
  | some (_, .pending) => setTask tasks i .cancelled
  | _ => tasks

/-- `item_timeouts` dictionary lookup. -/
def lookupItem : List ((String × Bool) × Nat) → (String × Bool) → Option Nat
  | [], _ => none
  | e :: es, k => if e.1 = k then some e.2 else lookupItem es k

/-- `item_timeouts.pop(item_key, None)`. -/
def eraseItemKey : List ((String × Bool) × Nat) → (String × Bool) → List ((String × Bool) × Nat)
  | [], _ => []
  | e :: es, k => if e.1 = k then eraseItemKey es k else e :: eraseItemKey es k

/-- The timeout-related state of one device: the task arena plus the stored
handles (`menu_timeout` and the `item_timeouts` dict of `MenuState`). -/
structure TimeoutState where
  tasks : List (TKey × TaskStatus)
  menuTimeout : Option Nat
  itemTimeouts : List ((String × Bool) × Nat)
deriving Repr, DecidableEq

/-- The device's initial timeout state: no tasks, no stored handles. -/
def emptyTimeouts : TimeoutState := ⟨[], none, []⟩

/-- `MenuManager._setup_timeout`: cancel the stored menu timeout if it is
still pending, then create a fresh pending task and store its handle. -/
def setup_timeout (ts : TimeoutState) : TimeoutState :=
  let tasks :=
    match ts.menuTimeout with
    | some i => cancelTask ts.tasks i
    | none => ts.tasks
  { ts with
      tasks := tasks ++ [(TKey.menuKey, TaskStatus.pending)],
      menuTimeout := some tasks.length }

/-- `MenuManager._cancel_timeout`: if a stored menu timeout exists and is
not done, cancel it and clear the handle; otherwise leave everything. -/
def cancel_timeout (ts : TimeoutState) : TimeoutState :=
  match ts.menuTimeout with
  | some i =>
      match getTask ts.tasks i with
      | some (_, TaskStatus.pending) =>
          { ts with tasks := setTask ts.tasks i TaskStatus.cancelled, menuTimeout := none }
      | _ => ts
  | none => ts

/-- `MenuManager._cancel_item_timeout`: if the dict holds a task for the
key, cancel it when not done and pop the key. -/
def cancel_item_timeout (ts : TimeoutState) (k : String × Bool) : TimeoutState :=
  match lookupItem ts.itemTimeouts k with
  | some i =>
      { ts with tasks := cancelTask ts.tasks i, itemTimeouts := eraseItemKey ts.itemTimeouts k }
  | none => ts

/-- `MenuManager._setup_item_timeout`: first `_cancel_item_timeout` for the
same key, then create a fresh pending task and store it under the key. -/
def setup_item_timeout (ts : TimeoutState) (k : String × Bool) : TimeoutState :=
  let ts1 := cancel_item_timeout ts k
  { ts1 with
      tasks := ts1.tasks ++ [(TKey.itemKey k.1 k.2, TaskStatus.pending)],
      itemTimeouts := ts1.itemTimeouts ++ [(k, ts1.tasks.length)] }

/-- The scheduler fires a pending task (the `asyncio.sleep` elapsed and the
callback ran to completion). -/
def fireTask (ts : TimeoutState) (i : Nat) : TimeoutState :=
  match getTask ts.tasks i with
  | some (_, TaskStatus.pending) => { ts with tasks := setTask ts.tasks i TaskStatus.fired }
  | _ => ts

/-- Events affecting the timeout state of one device: the manager arming or
cancelling a timeout for a key, or the scheduler firing a task. -/
inductive TimeoutOp where
  | armMenu : TimeoutOp
  | disarmMenu : TimeoutOp
  | armItem (k : String × Bool) : TimeoutOp
  | disarmItem (k : String × Bool) : TimeoutOp
  | fire (i : Nat) : TimeoutOp
deriving Repr

/-- Apply one timeout event. -/
def applyTOp (ts : TimeoutState) : TimeoutOp → TimeoutState
  | .armMenu => setup_timeout ts
  | .disarmMenu => cancel_timeout ts
  | .armItem k => setup_item_timeout ts k
  | .disarmItem k => cancel_item_timeout ts k
  | .fire i => fireTask ts i

/-- Apply a sequence of timeout events. -/
def applyTOps (ts : TimeoutState) (ops : List TimeoutOp) : TimeoutState :=
  ops.foldl applyTOp ts

/-!
## Service facade (`services.py`)
-/

/-- Outcome of `VAServices.async_handle_cancel_timer`: either the timer
engine's `cancel_timer` is invoked with the forwarded selectors, or a
structured error response is returned.  `raisedError` stands for an
exception propagating out of the handler; the definition below never
produces it.  Python truthiness of the selectors is modelled as `isSome`
(schema-validated selector strings are non-empty). -/
inductive CancelTimerOutcome where
  | engineCall (timer_id : Option String) (device_or_entity_id : Option String)
      (cancel_all : Bool) : CancelTimerOutcome
  | errorResponse (msg : String) : CancelTimerOutcome
  | raisedError (errName : String) : CancelTimerOutcome
deriving Repr, DecidableEq

/-- `VAServices.async_handle_cancel_timer`: forwards to the timer engine if
any of `timer_id`, `entity_id`, `device_id`, `remove_all` is truthy,
otherwise returns the error response without touching any timer. -/
def async_handle_cancel_timer (timer_id entity_id device_id : Option String)
    (cancel_all : Bool) : CancelTimerOutcome :=
  if timer_id.isSome ∨ entity_id.isSome ∨ device_id.isSome ∨ cancel_all then
    CancelTimerOutcome.engineCall timer_id
      (if entity_id.isSome then entity_id else device_id) cancel_all
  else CancelTimerOutcome.errorResponse "no attribute supplied"

/-- A Python method signature: positional parameter names (excluding
`self`) and how many trailing parameters have defaults. -/
structure PyMethodSig where
  params : List String
  numDefaults : Nat
deriving Repr, DecidableEq

/-- A positional call with `n` arguments binds iff the non-defaulted
parameters are covered and no extra arguments remain. -/
def PyMethodSig.acceptsArgCount (m : PyMethodSig) (n : Nat) : Bool :=
  decide (m.params.length - m.numDefaults ≤ n) && decide (n ≤ m.params.length)

/-- `MenuManager.toggle_menu(self, entity_id, show=None, timeout=None)`. -/
def toggleMenuSig : PyMethodSig := ⟨["entity_id", "show", "timeout"], 2⟩

/-- `MenuManager.add_menu_item(self, entity_id, status_item, menu=False,
timeout=None)`. -/
def addMenuItemSig : PyMethodSig := ⟨["entity_id", "status_item", "menu", "timeout"], 2⟩

/-- A Python value passed positionally by the service handlers. -/
inductive PyValue where
  | vstr (s : String) : PyValue
  | vbool (b : Bool) : PyValue
  | vint (n : Int) : PyValue
  | vnone : PyValue
  | vlist (l : List String) : PyValue
deriving Repr, DecidableEq

/-- An optional int service field as a Python value. -/
def pyOptInt : Option Int → PyValue
  | none => PyValue.vnone
  | some n => PyValue.vint n

/-- An optional list service field as a Python value. -/
def pyOptList : Option (List String) → PyValue
  | none => PyValue.vnone
  | some l => PyValue.vlist l

/-- The positional argument list built at the call site
`menu_manager.toggle_menu(entity_id, show, menu_items, timeout)` in
`async_handle_toggle_menu`. -/
def toggleMenuCallArgs (entity_id : String) (shw : Bool)
    (menu_items : Option (List String)) (timeout : Option Int) : List PyValue :=
  [PyValue.vstr entity_id, PyValue.vbool shw, pyOptList menu_items, pyOptInt timeout]

/-- Python truthiness of an optional int (the value the handler passes into
the `menu: bool` position). -/
def pyTruthy : Option Int → Bool
  | none => false
  | some n => decide (n ≠ 0)

/-- Outcome of a menu service handler. -/
inductive MenuServiceOutcome where
  | completed : MenuServiceOutcome
  | typeErrorRaised : MenuServiceOutcome
  | managerMissing : MenuServiceOutcome
deriving Repr, DecidableEq

/-- `VAServices.async_handle_toggle_menu`: when the menu manager exists it
calls `menu_manager.toggle_menu(entity_id, show, menu_items, timeout)` with
four positional arguments.  If the arity check fails the call raises
`TypeError` before the method body runs, so the menu state is untouched. -/
def async_handle_toggle_menu (cfg : VAConfig) (view : Option String)
    (managerReady : Bool) (s : MenuState) (entity_id : String) (shw : Bool)
    (menu_items : Option (List String)) (timeout : Option Int) :
    MenuServiceOutcome × MenuState :=
  if managerReady then
    if toggleMenuSig.acceptsArgCount (toggleMenuCallArgs entity_id shw menu_items timeout).length
    then (MenuServiceOutcome.completed, (toggle_menu cfg view s (some shw)).state)
    else (MenuServiceOutcome.typeErrorRaised, s)
  else (MenuServiceOutcome.managerMissing, s)

/-- `VAServices.async_handle_add_menu_item`: when the menu manager exists it
calls `menu_manager.add_menu_item(entity_id, menu_item, timeout)` with three
positional arguments, so the third binds to the `menu` parameter (by its
Python truthiness) and the method's `timeout` parameter keeps its default
`None`. -/
def async_handle_add_menu_item (cfg : VAConfig) (managerReady : Bool) (s : MenuState)
    (menu_item : String) (timeout : Option Int) : MenuServiceOutcome × AddResult :=
  if managerReady then
    if addMenuItemSig.acceptsArgCount 3 then
      (MenuServiceOutcome.completed, add_menu_item cfg s [menu_item] (pyTruthy timeout) none)
    else (MenuServiceOutcome.typeErrorRaised, ⟨s, false, []⟩)
  else (MenuServiceOutcome.managerMissing, ⟨s, false, []⟩)

/-!
## Invariant definitions
-/

/-- The toggle icon, when present, is the unique last entry. -/
def menuDecomp (l : List String) : Prop :=
  "menu" ∈ l → ∃ l₀, l = l₀ ++ ["menu"] ∧ "menu" ∉ l₀

/-- The status-icon invariant carried through every menu operation:
no duplicates, and (when the menu button is shown) the toggle icon only at
the end. -/
def IconInv (btn : Bool) (l : List String) : Prop :=
  l.Nodup ∧ (btn = true → menuDecomp l)

/-- The timeout-bookkeeping invariant: every pending task is the one whose
handle is currently stored for its key.  Since the stored handle is unique
per key, this yields at most one pending task per key. -/
def StoredInv (ts : TimeoutState) : Prop :=
  (∀ i, getTask ts.tasks i = some (TKey.menuKey, TaskStatus.pending) →
      ts.menuTimeout = some i) ∧
  (∀ i item isM, getTask ts.tasks i = some (TKey.itemKey item isM, TaskStatus.pending) →
      lookupItem ts.itemTimeouts (item, isM) = some i)

/-!
## Lemmas about the loop helpers
-/

theorem appendMissingGo_eq_append :
    ∀ (items l : List String) (b : Bool),
      ∃ extra, (appendMissingGo l b items).1 = l ++ extra ∧ ∀ x ∈ extra, x ∈ items := by
  intro items
  induction items with
  | nil => exact fun l b => ⟨[], by simp [appendMissingGo], by simp⟩
  | cons h t ih =>
    intro l b
    by_cases hm : h ∈ l
    · obtain ⟨e, he, hsub⟩ := ih l b
      exact ⟨e, by simpa [appendMissingGo, hm] using he,
        fun x hx => List.mem_cons_of_mem _ (hsub x hx)⟩
    · obtain ⟨e, he, hsub⟩ := ih (l ++ [h]) true
      refine ⟨h :: e, ?_, ?_⟩
      · simp only [appendMissingGo, if_neg hm]
        rw [he, List.append_assoc]
        rfl
      · intro x hx
        rcases List.mem_cons.mp hx with rfl | hx
        · exact List.mem_cons_self _ _
        · exact List.mem_cons_of_mem _ (hsub x hx)

theorem mem_appendMissingGo_left {x : String} {l : List String} (items : List String)
    (b : Bool) (hx : x ∈ l) : x ∈ (appendMissingGo l b items).1 := by
  obtain ⟨e, he, -⟩ := appendMissingGo_eq_append items l b
  rw [he]
  exact List.mem_append_left _ hx

theorem appendMissingGo_nodup :
    ∀ (items l : List String) (b : Bool), l.Nodup → (appendMissingGo l b items).1.Nodup := by
  intro items
  induction items with
  | nil => intro l b hl; simpa [appendMissingGo] using hl
  | cons h t ih =>
    intro l b hl
    by_cases hm : h ∈ l
    · simpa [appendMissingGo, hm] using ih l b hl
    · have hl2 : (l ++ [h]).Nodup := by
        rw [List.nodup_append]
        refine ⟨hl, List.nodup_singleton h, ?_⟩
        intro a ha hb
        rw [List.mem_singleton] at hb
        subst hb
        exact hm ha
      simpa [appendMissingGo, hm] using ih (l ++ [h]) true hl2

theorem appendMissingGo_of_subset :
    ∀ (items l : List String) (b : Bool), (∀ x ∈ items, x ∈ l) →
      appendMissingGo l b items = (l, b) := by
  intro items
  induction items with
  | nil => intro l b _; rfl
  | cons h t ih =>
    intro l b hsub
    have hm : h ∈ l := hsub h (List.mem_cons_self _ _)
    simp only [appendMissingGo, if_pos hm]
    exact ih l b fun x hx => hsub x (List.mem_cons_of_mem _ hx)

theorem appendMissingGo_snd_true :
    ∀ (items l : List String), (appendMissingGo l true items).2 = true := by
  intro items
  induction items with
  | nil => intro l; rfl
  | cons h t ih =>
    intro l
    by_cases hm : h ∈ l <;> simp [appendMissingGo, hm, ih]

theorem appendMissingGo_fst_of_not_changed :
    ∀ (items l : List String), (appendMissingGo l false items).2 = false →
      (appendMissingGo l false items).1 = l := by
  intro items
  induction items with
  | nil => intro l _; rfl
  | cons h t ih =>
    intro l hch
    by_cases hm : h ∈ l
    · simp only [appendMissingGo, if_pos hm] at hch ⊢
      exact ih l hch
    · simp only [appendMissingGo, if_neg hm] at hch
      rw [appendMissingGo_snd_true] at hch
      cases hch

theorem mem_appendMissingGo_arg {x : String} :
    ∀ (items l : List String) (b : Bool), x ∈ items → x ∈ (appendMissingGo l b items).1 := by
  intro items
  induction items with
  | nil => intro l b hx; cases hx
  | cons h t ih =>
    intro l b hx
    rcases List.mem_cons.mp hx with rfl | hx
    · by_cases hm : x ∈ l
      · simp only [appendMissingGo, if_pos hm]
        exact mem_appendMissingGo_left t b hm
      · simp only [appendMissingGo, if_neg hm]
        exact mem_appendMissingGo_left t true (by simp)
    · by_cases hm : h ∈ l <;> simp only [appendMissingGo, hm, if_pos, if_neg,
        not_false_eq_true] <;> exact ih _ _ hx

theorem appendSkipMenuGo_eq_append :
    ∀ (items l : List String) (b : Bool),
      ∃ extra, (appendSkipMenuGo l b items).1 = l ++ extra ∧
        ∀ x ∈ extra, x ∈ items ∧ x ≠ "menu" := by
  intro items
  induction items with
  | nil => exact fun l b => ⟨[], by simp [appendSkipMenuGo], by simp⟩
  | cons h t ih =>
    intro l b
    by_cases hm : h ≠ "menu" ∧ h ∉ l
    · obtain ⟨e, he, hsub⟩ := ih (l ++ [h]) true
      refine ⟨h :: e, ?_, ?_⟩
      · simp only [appendSkipMenuGo, if_pos hm]
        rw [he, List.append_assoc]
        rfl
      · intro x hx
        rcases List.mem_cons.mp hx with rfl | hx
        · exact ⟨List.mem_cons_self _ _, hm.1⟩
        · exact ⟨List.mem_cons_of_mem _ (hsub x hx).1, (hsub x hx).2⟩
    · obtain ⟨e, he, hsub⟩ := ih l b
      exact ⟨e, by simpa [appendSkipMenuGo, hm] using he,
        fun x hx => ⟨List.mem_cons_of_mem _ (hsub x hx).1, (hsub x hx).2⟩⟩

theorem appendSkipMenuGo_nodup :
    ∀ (items l : List String) (b : Bool), l.Nodup → (appendSkipMenuGo l b items).1.Nodup := by
  intro items
  induction items with
  | nil => intro l b hl; simpa [appendSkipMenuGo] using hl
  | cons h t ih =>
    intro l b hl
    by_cases hm : h ≠ "menu" ∧ h ∉ l
    · have hl2 : (l ++ [h]).Nodup := by
        rw [List.nodup_append]
        refine ⟨hl, List.nodup_singleton h, ?_⟩
        intro a ha hb
        rw [List.mem_singleton] at hb
        subst hb
        exact hm.2 ha
      simpa [appendSkipMenuGo, hm] using ih (l ++ [h]) true hl2
    · simpa [appendSkipMenuGo, hm] using ih l b hl

theorem appendSkipMenuGo_of_subset :
    ∀ (items l : List String) (b : Bool), (∀ x ∈ items, x ∈ l) →
      appendSkipMenuGo l b items = (l, b) := by
  intro items
  induction items with
  | nil => intro l b _; rfl
  | cons h t ih =>
    intro l b hsub
    have hm : ¬(h ≠ "menu" ∧ h ∉ l) := by
      intro hc
      exact hc.2 (hsub h (List.mem_cons_self _ _))
    simp only [appendSkipMenuGo, if_neg hm]
    exact ih l b fun x hx => hsub x (List.mem_cons_of_mem _ hx)

theorem removeIconsGo_subset {btn : Bool} {x : String} :
    ∀ (items l : List String) (b : Bool),
      x ∈ (removeIconsGo btn l b items).1 → x ∈ l := by
  intro items
  induction items with
  | nil => intro l b hx; simpa [removeIconsGo] using hx
  | cons h t ih =>
    intro l b hx
    by_cases h1 : h = "menu" ∧ btn = true
    · exact ih l b (by simpa [removeIconsGo, h1] using hx)
    · by_cases h2 : h ∈ l
      · have := ih (l.erase h) true (by simpa [removeIconsGo, h1, h2] using hx)
        exact List.mem_of_mem_erase this
      · exact ih l b (by simpa [removeIconsGo, h1, h2] using hx)

theorem menu_not_mem_filter_ne (l : List String) :
    "menu" ∉ l.filter (fun i => decide (i ≠ "menu")) := by
  intro h
  have := (List.mem_filter.mp h).2
  simp at this

theorem menuDecomp_ensure (l : List String) :
    menuDecomp (ensure_menu_button_at_end l) := by
  intro _
  exact ⟨l.filter (fun i => decide (i ≠ "menu")), rfl, menu_not_mem_filter_ne l⟩

theorem nodup_ensure {l : List String} (h : l.Nodup) :
    (ensure_menu_button_at_end l).Nodup := by
  rw [ensure_menu_button_at_end, List.nodup_append]
  refine ⟨h.filter _, List.nodup_singleton _, ?_⟩
  intro a ha hb
  rw [List.mem_singleton] at hb
  subst hb
  exact menu_not_mem_filter_ne l ha

theorem menuDecomp_append_menu {l : List String} (h : "menu" ∉ l) :
    menuDecomp (l ++ ["menu"]) := fun _ => ⟨l, rfl, h⟩

theorem nodup_append_menu {l : List String} (hnd : l.Nodup) (h : "menu" ∉ l) :
    (l ++ ["menu"]).Nodup := by
  rw [List.nodup_append]
  refine ⟨hnd, List.nodup_singleton _, ?_⟩
  intro a ha hb
  rw [List.mem_singleton] at hb
  subst hb
  exact h ha

theorem menuDecomp_erase {l : List String} {x : String} (hd : menuDecomp l)
    (hx : x ≠ "menu") : menuDecomp (l.erase x) := by
  intro hm
  obtain ⟨l₀, rfl, hn⟩ := hd (List.mem_of_mem_erase hm)
  by_cases hxl : x ∈ l₀
  · rw [List.erase_append_left _ hxl]
    exact ⟨l₀.erase x, rfl, fun hc => hn (List.mem_of_mem_erase hc)⟩
  · rw [List.erase_append_right _ hxl,
      List.erase_of_not_mem (by simpa [List.mem_singleton] using hx)]
    exact ⟨l₀, rfl, hn⟩

theorem removeIconsGo_inv {btn : Bool} :
    ∀ (items l : List String) (b : Bool), IconInv btn l →
      IconInv btn (removeIconsGo btn l b items).1 := by
  intro items
  induction items with
  | nil => intro l b h; simpa [removeIconsGo] using h
  | cons h t ih =>
    intro l b hinv
    by_cases h1 : h = "menu" ∧ btn = true
    · simpa [removeIconsGo, h1] using ih l b hinv
    · by_cases h2 : h ∈ l
      · have hinv2 : IconInv btn (l.erase h) := by
          refine ⟨hinv.1.erase h, fun hbtn => ?_⟩
          have hne : h ≠ "menu" := by
            intro hc
            exact h1 ⟨hc, hbtn⟩
          exact menuDecomp_erase (hinv.2 hbtn) hne
        simpa [removeIconsGo, h1, h2] using ih (l.erase h) true hinv2
      · simpa [removeIconsGo, h1, h2] using ih l b hinv

theorem removeMenuIconsGo_noop {conf2 : List String} :
    ∀ (items l : List String), (∀ x ∈ items, x ∉ conf2) →
      removeMenuIconsGo conf2 l items = l := by
  intro items
  induction items with
  | nil => intro l _; rfl
  | cons h t ih =>
    intro l hsub
    have hm : ¬(h ∈ l ∧ h ∈ conf2) := fun hc => hsub h (List.mem_cons_self _ _) hc.2
    simp only [removeMenuIconsGo, if_neg hm]
    exact ih l fun x hx => hsub x (List.mem_cons_of_mem _ hx)

theorem menu_not_mem_systemIcons (s : MenuState) : "menu" ∉ systemIcons s := by
  intro h
  have := (List.mem_filter.mp h).2
  simp at this

theorem toggleHideIcons_eq (btn : Bool) (s : MenuState) :
    toggleHideIcons btn s = if btn then systemIcons s ++ ["menu"] else systemIcons s := by
  have hu : appendMissingGo (systemIcons s) false (systemIcons s) = (systemIcons s, false) :=
    appendMissingGo_of_subset _ _ _ (fun x hx => hx)
  simp only [toggleHideIcons, hu]
  cases btn with
  | true => simp [menu_not_mem_systemIcons s]
  | false => simp

theorem iconInv_mergeIconsEnsure (btn : Bool) {base : List String} (items : List String)
    (h : base.Nodup) : IconInv btn (mergeIconsEnsure btn base items) := by
  cases btn with
  | true =>
    simp only [mergeIconsEnsure, if_true]
    exact ⟨nodup_ensure (appendMissingGo_nodup _ _ _ h), fun _ => menuDecomp_ensure _⟩
  | false =>
    simp only [mergeIconsEnsure, if_false]
    exact ⟨appendMissingGo_nodup _ _ _ h, fun hc => by cases hc⟩

theorem iconInv_toggleHideIcons (btn : Bool) (s : MenuState) (h : s.status_icons.Nodup) :
    IconInv btn (toggleHideIcons btn s) := by
  rw [toggleHideIcons_eq]
  have hnd : (systemIcons s).Nodup := h.filter _
  cases btn with
  | true =>
    exact ⟨nodup_append_menu hnd (menu_not_mem_systemIcons s),
      fun _ => menuDecomp_append_menu (menu_not_mem_systemIcons s)⟩
  | false => exact ⟨hnd, fun hc => by cases hc⟩

theorem iconInv_addStatusIcons (btn : Bool) {status : List String} (items : List String)
    (h : status.Nodup) : IconInv btn (addStatusIcons btn status items).1 := by
  cases btn with
  | true =>
    simp only [addStatusIcons, if_true]
    exact ⟨nodup_ensure (appendSkipMenuGo_nodup _ _ _ h), fun _ => menuDecomp_ensure _⟩
  | false =>
    simp only [addStatusIcons, if_false]
    exact ⟨appendSkipMenuGo_nodup _ _ _ h, fun hc => by cases hc⟩

theorem iconInv_removeStatusIcons (btn : Bool) {status : List String} (items : List String)
    (h : IconInv btn status) : IconInv btn (removeStatusIcons btn status items).1 := by
  have h0 : IconInv btn (removeIconsGo btn status false items).1 :=
    removeIconsGo_inv items status false h
  simp only [removeStatusIcons]
  by_cases hc : btn ∧ "menu" ∉ (removeIconsGo btn status false items).1
  · simp only [if_pos hc]
    exact ⟨nodup_append_menu h0.1 hc.2, fun _ => menuDecomp_append_menu hc.2⟩
  · simp only [if_neg hc]
    exact h0

theorem iconInv_appendMenuIfMissing (btn : Bool) {l : List String} (h : IconInv btn l) :
    IconInv btn (if btn ∧ "menu" ∉ l then l ++ ["menu"] else l) := by
  by_cases hc : btn ∧ "menu" ∉ l
  · simp only [if_pos hc]
    exact ⟨nodup_append_menu h.1 hc.2, fun _ => menuDecomp_append_menu hc.2⟩
  · simp only [if_neg hc]
    exact h

theorem iconInv_applyOp (cfg : VAConfig) (s : MenuState) (op : MenuOp)
    (h : IconInv cfg.show_menu_button s.status_icons) :
    IconInv cfg.show_menu_button (applyOp cfg s op).status_icons := by
  cases op with
  | toggle shOpt view =>
    simp only [applyOp, toggle_menu]
    by_cases hen : cfg.enable_menu
    · simp only [if_pos hen]
      cases hsh : shOpt.getD (!s.active) with
      | true =>
        simp only [if_true]
        exact iconInv_mergeIconsEnsure _ _ h.1
      | false =>
        simp only [Bool.false_eq_true, if_false]
        exact iconInv_toggleHideIcons _ _ h.1
    · simp only [if_neg hen]
      exact h
  | add items menu timeout =>
    simp only [applyOp, add_menu_item]
    by_cases hit : items = []
    · simp only [if_pos hit]
      exact h
    · simp only [if_neg hit]
      cases menu with
      | true =>
        simp only [if_true]
        cases hr : (appendMissingGo s.configured_items false items).2 with
        | true =>
          simp only [if_true]
          cases hac : s.active with
          | true =>
            simp only [if_true]
            exact iconInv_mergeIconsEnsure _ _ h.1
          | false =>
            simp only [Bool.false_eq_true, if_false]
            exact h
        | false =>
          simp only [Bool.false_eq_true, if_false]
          exact h
      | false =>
        simp only [Bool.false_eq_true, if_false]
        cases hr : (addStatusIcons cfg.show_menu_button s.status_icons items).2 with
        | true =>
          simp only [if_true]
          exact iconInv_addStatusIcons _ _ h.1
        | false =>
          simp only [Bool.false_eq_true, if_false]
          exact h
  | remove items menu =>
    simp only [applyOp, remove_menu_item]
    by_cases hit : items = []
    · simp only [if_pos hit]
      exact h
    · simp only [if_neg hit]
      cases menu with
      | true =>
        simp only [if_true]
        by_cases hcf : s.configured_items.filter (fun i => decide (i ∉ items))
            = s.configured_items
        · simp only [if_pos hcf]
          exact h
        · simp only [if_neg hcf]
          cases hac : s.active with
          | true =>
            simp only [if_true]
            have hdead : removeMenuIconsGo
                (s.configured_items.filter (fun i => decide (i ∉ items)))
                s.status_icons items = s.status_icons := by
              refine removeMenuIconsGo_noop _ _ ?_
              intro x hx hc
              have := (List.mem_filter.mp hc).2
              rw [decide_eq_true_iff] at this
              exact this hx
            simp only [removeMenuActiveIcons, hdead]
            exact iconInv_appendMenuIfMissing _ h
          | false =>
            simp only [Bool.false_eq_true, if_false]
            exact h
      | false =>
        simp only [Bool.false_eq_true, if_false]
        cases hr : (removeStatusIcons cfg.show_menu_button s.status_icons items).2 with
        | true =>
          simp only [if_true]
          exact iconInv_removeStatusIcons _ _ h
        | false =>
          simp only [Bool.false_eq_true, if_false]
          exact h
  | refresh view =>
    simp only [applyOp, refresh_menu]
    cases hac : s.active with
    | true =>
      simp only [if_true]
      exact iconInv_mergeIconsEnsure _ _ (h.1.filter _)
    | false =>
      simp only [Bool.false_eq_true, if_false]
      exact h

theorem iconInv_applyOps (cfg : VAConfig) :
    ∀ (ops : List MenuOp) (s : MenuState), IconInv cfg.show_menu_button s.status_icons →
      IconInv cfg.show_menu_button (applyOps cfg s ops).status_icons := by
  intro ops
  induction ops with
  | nil => intro s h; simpa [applyOps] using h
  | cons op rest ih =>
    intro s h
    have h1 := iconInv_applyOp cfg s op h
    simpa [applyOps, List.foldl_cons] using ih (applyOp cfg s op) h1

/-- Claim C1: for every device with show_menu_button enabled, after any
sequence of menu operations starting from the device's fresh menu state,
whenever the toggle icon "menu" is present in status_icons it is the last
entry. -/
theorem menu_button_always_last (cfg : VAConfig) (ops : List MenuOp)
    (hbtn : cfg.show_menu_button = true)
    (hm : "menu" ∈ (applyOps cfg freshMenuState ops).status_icons) :
    (applyOps cfg freshMenuState ops).status_icons.getLast? = some "menu" := by
  have hinv0 : IconInv cfg.show_menu_button freshMenuState.status_icons := by
    constructor
    · simp [freshMenuState]
    · intro _ hc
      simp [freshMenuState] at hc
  have hinv := iconInv_applyOps cfg ops freshMenuState hinv0
  obtain ⟨l₀, heq, -⟩ := hinv.2 hbtn hm
  rw [heq]
  exact List.getLast?_concat _

theorem menu_button_always_last_witness :
    ((⟨true, true⟩ : VAConfig).show_menu_button = true ∧
      "menu" ∈ (applyOps ⟨true, true⟩ freshMenuState
        [MenuOp.toggle (some true) none]).status_icons) ∧
    (applyOps ⟨true, true⟩ freshMenuState
        [MenuOp.toggle (some true) none]).status_icons.getLast? = some "menu" :=
  ⟨⟨rfl, by decide⟩, menu_button_always_last ⟨true, true⟩ _ rfl (by decide)⟩

/-- Claim C5: for every device configuration and any sequence of
toggle/add/remove/refresh operations starting from the device's fresh menu
state, status_icons never contains duplicate entries. -/
theorem status_icons_never_duplicated (cfg : VAConfig) (ops : List MenuOp) :
    (applyOps cfg freshMenuState ops).status_icons.Nodup := by
  have hinv0 : IconInv cfg.show_menu_button freshMenuState.status_icons := by
    constructor
    · simp [freshMenuState]
    · intro _ hc
      simp [freshMenuState] at hc
  exact (iconInv_applyOps cfg ops freshMenuState hinv0).1

theorem filter_mergeIconsEnsure (btn : Bool) (base items : List String)
    (p : String → Bool) (hpm : p "menu" = false) (hpi : ∀ x ∈ items, p x = false) :
    (mergeIconsEnsure btn base items).filter p = base.filter p := by
  obtain ⟨e, he, hsub⟩ := appendMissingGo_eq_append items base false
  have hef : e.filter p = [] :=
    List.filter_eq_nil_iff.mpr (fun a ha => by simp [hpi a (hsub a ha)])
  cases btn with
  | false =>
    simp only [mergeIconsEnsure, Bool.false_eq_true, if_false]
    rw [he, List.filter_append, hef, List.append_nil]
  | true =>
    simp only [mergeIconsEnsure, if_true, ensure_menu_button_at_end]
    rw [List.filter_append]
    have h1 : (["menu"] : List String).filter p = [] := by simp [hpm]
    rw [h1, List.append_nil, List.filter_filter]
    have hcong : (appendMissingGo base false items).1.filter
        (fun a => p a && decide (a ≠ "menu")) = (appendMissingGo base false items).1.filter p := by
      apply List.filter_congr
      intro a _
      cases hpa : p a with
      | false => simp
      | true =>
        have hne : a ≠ "menu" := by
          intro hc
          rw [hc, hpm] at hpa
          cases hpa
        simp [hne]
    rw [hcong, he, List.filter_append, hef, List.append_nil]

theorem toggle_roundtrip_formula (cfg : VAConfig) (v1 v2 : Option String)
    (s : MenuState) (hen : cfg.enable_menu = true) :
    (toggle_menu cfg v2 (toggle_menu cfg v1 s (some true)).state
        (some false)).state.status_icons
      = s.status_icons.filter
          (fun i => decide (i ∉ viewFiltered s.configured_items v1 ∧ i ≠ "menu"))
        ++ (if cfg.show_menu_button then ["menu"] else []) := by
  simp only [toggle_menu, hen, Option.getD_some, if_true]
  rw [toggleHideIcons_eq]
  have hsys : systemIcons
      ⟨true, viewFiltered s.configured_items v1,
        mergeIconsEnsure cfg.show_menu_button s.status_icons
          (viewFiltered s.configured_items v1)⟩
      = s.status_icons.filter
          (fun i => decide (i ∉ viewFiltered s.configured_items v1 ∧ i ≠ "menu")) := by
    rw [systemIcons]
    exact filter_mergeIconsEnsure _ _ _ _ (by simp)
      (fun x hx => by simp [hx])
  rw [hsys]
  cases cfg.show_menu_button <;> simp

/-- Claim C2 counterexample: on a device whose current view "weather" is
both a configured item and present in status_icons, toggling the menu on
and back off does not restore status_icons to the system-icon set plus the
toggle icon: the view item is left behind. -/
theorem toggle_roundtrip_counterexample :
    (toggle_menu ⟨true, true⟩ (some "weather")
        (toggle_menu ⟨true, true⟩ (some "weather")
          ⟨false, ["weather"], ["weather", "music"]⟩ (some true)).state
        (some false)).state.status_icons
      ≠ systemIcons ⟨false, ["weather"], ["weather", "music"]⟩ ++ ["menu"] := by decide

/-- Claim C2 (amended): toggle(show=true) then toggle(show=false) on an
otherwise-idle enabled device restores status_icons to exactly the
system-icon set plus the toggle icon (when shown), provided the current
view is not simultaneously a configured item and present in status_icons
(in that case the view item is reclassified as a system icon and kept). -/
theorem toggle_roundtrip_restores_system_icons (cfg : VAConfig) (v1 v2 : Option String)
    (s : MenuState) (hen : cfg.enable_menu = true)
    (hview : ∀ v, v1 = some v → v ∈ s.configured_items → v ∉ s.status_icons) :
    (toggle_menu cfg v2 (toggle_menu cfg v1 s (some true)).state
        (some false)).state.status_icons
      = systemIcons s ++ (if cfg.show_menu_button then ["menu"] else []) := by
  rw [toggle_roundtrip_formula cfg v1 v2 s hen]
  congr 1
  rw [systemIcons]
  apply List.filter_congr
  intro x hx
  have hmem : x ∈ viewFiltered s.configured_items v1 ↔ x ∈ s.configured_items := by
    cases v1 with
    | none => exact Iff.rfl
    | some v =>
      simp only [viewFiltered]
      by_cases hv : v ∈ s.configured_items
      · simp only [if_pos hv, List.mem_filter, decide_eq_true_iff]
        constructor
        · exact fun h => h.1
        · intro h
          refine ⟨h, ?_⟩
          intro hc
          exact absurd hx (hc ▸ hview v rfl hv)
      · simp only [if_neg hv]
  rw [decide_eq_decide]
  exact and_congr_left' (not_congr hmem)

theorem toggle_roundtrip_restores_system_icons_witness :
    ((⟨true, true⟩ : VAConfig).enable_menu = true ∧
      (∀ v : String, (none : Option String) = some v →
        v ∈ (⟨false, ["music"], ["clock"]⟩ : MenuState).configured_items →
        v ∉ (⟨false, ["music"], ["clock"]⟩ : MenuState).status_icons)) ∧
    (toggle_menu ⟨true, true⟩ none
        (toggle_menu ⟨true, true⟩ none ⟨false, ["music"], ["clock"]⟩ (some true)).state
        (some false)).state.status_icons
      = systemIcons ⟨false, ["music"], ["clock"]⟩ ++
          (if (⟨true, true⟩ : VAConfig).show_menu_button then ["menu"] else []) :=
  ⟨⟨rfl, fun v hv => by cases hv⟩,
    toggle_roundtrip_restores_system_icons ⟨true, true⟩ none none
      ⟨false, ["music"], ["clock"]⟩ rfl (fun v hv => by cases hv)⟩

/-- Claim C3 counterexample: a non-menu add of an item already present in
status_icons still emits a state-store write when show_menu_button is
enabled (`changed` is unconditionally forced to True), refuting "emits no
state-store write" even though nothing changes. -/
theorem add_present_item_counterexample :
    (add_menu_item ⟨true, true⟩ ⟨false, [], ["vol", "menu"]⟩ ["vol"] false none).wrote
        = true ∧
    (add_menu_item ⟨true, true⟩ ⟨false, [], ["vol", "menu"]⟩ ["vol"] false none).state
        = ⟨false, [], ["vol", "menu"]⟩ := by decide

/-- Claim C3 (amended): adding item(s) already present introduces no
duplicate and leaves configured_items unchanged; a menu add is a complete
no-op with no write, and so is a non-menu add when show_menu_button is
disabled; a non-menu add with show_menu_button enabled still emits a write
and rewrites status_icons as ensure-menu-button-at-end of the old value. -/
theorem add_present_item_amended (cfg : VAConfig) (s : MenuState) (items : List String)
    (t : Option Int) (hne : items ≠ []) :
    ((∀ x ∈ items, x ∈ s.configured_items) →
      (add_menu_item cfg s items true t).state = s ∧
      (add_menu_item cfg s items true t).wrote = false) ∧
    ((∀ x ∈ items, x ∈ s.status_icons) → cfg.show_menu_button = false →
      (add_menu_item cfg s items false t).state = s ∧
      (add_menu_item cfg s items false t).wrote = false) ∧
    ((∀ x ∈ items, x ∈ s.status_icons) → cfg.show_menu_button = true →
      (add_menu_item cfg s items false t).state.configured_items = s.configured_items ∧
      (add_menu_item cfg s items false t).state.status_icons
        = ensure_menu_button_at_end s.status_icons ∧
      (add_menu_item cfg s items false t).wrote = true ∧
      (s.status_icons.Nodup → (add_menu_item cfg s items false t).state.status_icons.Nodup)) := by
  refine ⟨?_, ?_, ?_⟩
  · intro hsub
    have hr : appendMissingGo s.configured_items false items = (s.configured_items, false) :=
      appendMissingGo_of_subset _ _ _ hsub
    simp [add_menu_item, hne, hr]
  · intro hsub hbtn
    have hr : appendSkipMenuGo s.status_icons false items = (s.status_icons, false) :=
      appendSkipMenuGo_of_subset _ _ _ hsub
    simp [add_menu_item, hne, addStatusIcons, hbtn, hr]
  · intro hsub hbtn
    have hr : appendSkipMenuGo s.status_icons false items = (s.status_icons, false) :=
      appendSkipMenuGo_of_subset _ _ _ hsub
    simp only [add_menu_item, hne, addStatusIcons, hbtn, hr, if_true, if_false,
      Bool.false_eq_true, ite_false, ite_true]
    exact ⟨trivial, trivial, trivial, fun hnd => nodup_ensure hnd⟩

theorem add_present_item_amended_witness :
    ((["vol"] : List String) ≠ [] ∧
      (∀ x ∈ (["vol"] : List String),
        x ∈ (⟨false, ["vol"], ["vol", "menu"]⟩ : MenuState).configured_items)) ∧
    ((add_menu_item ⟨true, true⟩ ⟨false, ["vol"], ["vol", "menu"]⟩ ["vol"] true none).state
        = ⟨false, ["vol"], ["vol", "menu"]⟩ ∧
      (add_menu_item ⟨true, true⟩
          ⟨false, ["vol"], ["vol", "menu"]⟩ ["vol"] true none).wrote = false) :=
  ⟨⟨by decide, by decide⟩,
    (add_present_item_amended ⟨true, true⟩ ⟨false, ["vol"], ["vol", "menu"]⟩
        ["vol"] none (by decide)).1 (by decide)⟩

/-- Claim C4 (code-bug evaluation): with the menu active, removing the
configured item "tools" with to_menu=true empties configured_items and
cancels the item's pending auto-remove key, but leaves "tools" in
status_icons: the removal guard in the loop tests membership in the
already-updated configured_items (always false there), so the live removal
the spec requires never happens. -/
theorem remove_menu_item_leaves_status_icon :
    (remove_menu_item ⟨true, true⟩ ⟨true, ["tools"], ["tools", "menu"]⟩
        ["tools"] true).state = ⟨true, [], ["tools", "menu"]⟩ ∧
    (remove_menu_item ⟨true, true⟩ ⟨true, ["tools"], ["tools", "menu"]⟩
        ["tools"] true).cancelled = [("tools", true)] := by decide

/-- Claim C6 counterexample: with the menu feature disabled,
add_menu_item still mutates status_icons and emits a state-store write —
it is not a no-op. -/
theorem menu_disabled_add_counterexample :
    (add_menu_item ⟨false, false⟩ freshMenuState ["vol"] false none).state.status_icons
        = ["vol"] ∧
    (add_menu_item ⟨false, false⟩ freshMenuState ["vol"] false none).wrote = true := by
  decide

/-- Claim C6 (amended): only toggle_menu is a silent no-op (no state
change, no write, no error) when the menu feature is disabled;
add_menu_item and remove_menu_item do not consult the enable-menu option
and run normally whenever the device has a config entry. -/
theorem toggle_menu_disabled_noop (cfg : VAConfig) (view : Option String)
    (s : MenuState) (shOpt : Option Bool) (h : cfg.enable_menu = false) :
    toggle_menu cfg view s shOpt = ⟨s, false⟩ := by
  simp [toggle_menu, h]

theorem toggle_menu_disabled_noop_witness :
    (⟨false, true⟩ : VAConfig).enable_menu = false ∧
    toggle_menu ⟨false, true⟩ none freshMenuState (some true) = ⟨freshMenuState, false⟩ :=
  ⟨rfl, toggle_menu_disabled_noop ⟨false, true⟩ none freshMenuState (some true) rfl⟩

/-!
## Lemmas about the timeout task arena
-/

theorem getTask_append_lt :
    ∀ (l1 l2 : List (TKey × TaskStatus)) (i : Nat), i < l1.length →
      getTask (l1 ++ l2) i = getTask l1 i := by
  intro l1
  induction l1 with
  | nil => intro l2 i hi; cases hi
  | cons h t ih =>
    intro l2 i hi
    cases i with
    | zero => rfl
    | succ n => exact ih l2 n (Nat.lt_of_succ_lt_succ hi)

theorem getTask_append_length :
    ∀ (l : List (TKey × TaskStatus)) (t : TKey × TaskStatus),
      getTask (l ++ [t]) l.length = some t := by
  intro l
  induction l with
  | nil => intro t; rfl
  | cons h tl ih => intro t; exact ih t

theorem getTask_append_cases :
    ∀ (l : List (TKey × TaskStatus)) (t : TKey × TaskStatus) (i : Nat)
      (x : TKey × TaskStatus), getTask (l ++ [t]) i = some x →
      getTask l i = some x ∨ (i = l.length ∧ x = t) := by
  intro l
  induction l with
  | nil =>
    intro t i x hx
    cases i with
    | zero =>
      right
      exact ⟨rfl, (Option.some.inj hx).symm⟩
    | succ n => cases hx
  | cons h tl ih =>
    intro t i x hx
    cases i with
    | zero => exact Or.inl hx
    | succ n =>
      rcases ih t n x hx with hl | ⟨hn, hxt⟩
      · exact Or.inl hl
      · exact Or.inr ⟨by simp [hn], hxt⟩

theorem getTask_setTask_self :
    ∀ (l : List (TKey × TaskStatus)) (i : Nat) (st : TaskStatus) (k : TKey)
      (st0 : TaskStatus), getTask l i = some (k, st0) →
      getTask (setTask l i st) i = some (k, st) := by
  intro l
  induction l with
  | nil => intro i st k st0 h; cases h
  | cons hd tl ih =>
    intro i st k st0 h
    cases i with
    | zero =>
      cases Option.some.inj h
      rfl
    | succ n => exact ih n st k st0 h

theorem getTask_setTask_ne :
    ∀ (l : List (TKey × TaskStatus)) (i j : Nat) (st : TaskStatus), i ≠ j →
      getTask (setTask l i st) j = getTask l j := by
  intro l
  induction l with
  | nil => intro i j st _; cases i <;> rfl
  | cons hd tl ih =>
    intro i j st hij
    cases i with
    | zero =>
      cases j with
      | zero => exact absurd rfl hij
      | succ m => rfl
    | succ n =>
      cases j with
      | zero => rfl
      | succ m => exact ih n m st (fun hc => hij (by rw [hc]))

theorem setTask_length :
    ∀ (l : List (TKey × TaskStatus)) (i : Nat) (st : TaskStatus),
      (setTask l i st).length = l.length := by
  intro l
  induction l with
  | nil => intro i st; cases i <;> rfl
  | cons hd tl ih =>
    intro i st
    cases i with
    | zero => rfl
    | succ n => exact congrArg Nat.succ (ih n st)

theorem getTask_cancelTask_self_not_pending (l : List (TKey × TaskStatus)) (i : Nat)
    (k : TKey) : getTask (cancelTask l i) i ≠ some (k, TaskStatus.pending) := by
  unfold cancelTask
  cases hgt : getTask l i with
  | none =>
    rw [hgt]
    simp
  | some t =>
    obtain ⟨k0, st⟩ := t
    cases st with
    | pending =>
      rw [getTask_setTask_self l i TaskStatus.cancelled k0 TaskStatus.pending hgt]
      simp
    | fired =>
      rw [hgt]
      simp
    | cancelled =>
      rw [hgt]
      simp

theorem getTask_cancelTask_ne (l : List (TKey × TaskStatus)) (i j : Nat)
    (hij : j ≠ i) : getTask (cancelTask l i) j = getTask l j := by
  unfold cancelTask
  cases hgt : getTask l i with
  | none => rfl
  | some t =>
    obtain ⟨k0, st⟩ := t
    cases st with
    | pending => exact getTask_setTask_ne l i j _ (Ne.symm hij)
    | fired => rfl
    | cancelled => rfl

theorem getTask_cancelTask_pending (l : List (TKey × TaskStatus)) (i j : Nat)
    (k : TKey) (h : getTask (cancelTask l i) j = some (k, TaskStatus.pending)) :
    getTask l j = some (k, TaskStatus.pending) ∧ j ≠ i := by
  by_cases hij : j = i
  · subst hij
    exact absurd h (getTask_cancelTask_self_not_pending l j k)
  · refine ⟨?_, hij⟩
    rw [← getTask_cancelTask_ne l i j hij]
    exact h

theorem cancelTask_length (l : List (TKey × TaskStatus)) (i : Nat) :
    (cancelTask l i).length = l.length := by
  unfold cancelTask
  cases hgt : getTask l i with
  | none => rfl
  | some t =>
    obtain ⟨k0, st⟩ := t
    cases st with
    | pending => exact setTask_length l i _
    | fired => rfl
    | cancelled => rfl

theorem lookupItem_eraseItemKey_self :
    ∀ (l : List ((String × Bool) × Nat)) (k : String × Bool),
      lookupItem (eraseItemKey l k) k = none := by
  intro l
  induction l with
  | nil => intro k; rfl
  | cons e es ih =>
    intro k
    by_cases he : e.1 = k
    · simpa [eraseItemKey, he] using ih k
    · simpa [eraseItemKey, lookupItem, he] using ih k

theorem lookupItem_eraseItemKey_ne :
    ∀ (l : List ((String × Bool) × Nat)) (k k' : String × Bool), k' ≠ k →
      lookupItem (eraseItemKey l k) k' = lookupItem l k' := by
  intro l
  induction l with
  | nil => intro k k' _; rfl
  | cons e es ih =>
    intro k k' hk
    by_cases he : e.1 = k
    · have hne : ¬(e.1 = k') := by
        rw [he]
        exact fun hc => hk hc.symm
      simp only [eraseItemKey, if_pos he, lookupItem, if_neg hne]
      exact ih k k' hk
    · simp only [eraseItemKey, if_neg he, lookupItem]
      by_cases he' : e.1 = k'
      · simp only [if_pos he']
      · simp only [if_neg he']
        exact ih k k' hk

theorem lookupItem_append_some
    (l1 l2 : List ((String × Bool) × Nat)) (k : String × Bool) (v : Nat)
    (h : lookupItem l1 k = some v) : lookupItem (l1 ++ l2) k = some v := by
  induction l1 with
  | nil => cases h
  | cons e es ih =>
    by_cases he : e.1 = k
    · simpa [lookupItem, he] using by simpa [lookupItem, he] using h
    · exact by simpa [lookupItem, he] using ih (by simpa [lookupItem, he] using h)

theorem lookupItem_append_none
    (l1 l2 : List ((String × Bool) × Nat)) (k : String × Bool)
    (h : lookupItem l1 k = none) : lookupItem (l1 ++ l2) k = lookupItem l2 k := by
  induction l1 with
  | nil => rfl
  | cons e es ih =>
    by_cases he : e.1 = k
    · rw [lookupItem, if_pos he] at h
      cases h
    · exact by simpa [lookupItem, he] using ih (by simpa [lookupItem, he] using h)

theorem storedInv_empty : StoredInv emptyTimeouts := by
  constructor
  · intro i h
    cases h
  · intro i item isM h
    cases h

theorem storedInv_arm_menu_aux (itemMap : List ((String × Bool) × Nat))
    (tasks0 : List (TKey × TaskStatus))
    (hnm : ∀ j, getTask tasks0 j ≠ some (TKey.menuKey, TaskStatus.pending))
    (hi : ∀ j item isM,
      getTask tasks0 j = some (TKey.itemKey item isM, TaskStatus.pending) →
        lookupItem itemMap (item, isM) = some j) :
    StoredInv ⟨tasks0 ++ [(TKey.menuKey, TaskStatus.pending)],
      some tasks0.length, itemMap⟩ := by
  constructor
  · intro i hI
    rcases getTask_append_cases tasks0 _ i _ hI with hl | ⟨hlen, -⟩
    · exact absurd hl (hnm i)
    · rw [hlen]
  · intro i item isM hI
    rcases getTask_append_cases tasks0 _ i _ hI with hl | ⟨-, hx⟩
    · exact hi i item isM hl
    · simp at hx

theorem storedInv_setup_timeout (ts : TimeoutState) (h : StoredInv ts) :
    StoredInv (setup_timeout ts) := by
  obtain ⟨hm, hit⟩ := h
  cases hmt : ts.menuTimeout with
  | none =>
    have heq : setup_timeout ts
        = ⟨ts.tasks ++ [(TKey.menuKey, TaskStatus.pending)],
            some ts.tasks.length, ts.itemTimeouts⟩ := by
      simp [setup_timeout, hmt]
    rw [heq]
    apply storedInv_arm_menu_aux
    · intro j hc
      have hj := hm j hc
      rw [hmt] at hj
      cases hj
    · intro j item isM hc
      exact hit j item isM hc
  | some i0 =>
    have heq : setup_timeout ts
        = ⟨cancelTask ts.tasks i0 ++ [(TKey.menuKey, TaskStatus.pending)],
            some (cancelTask ts.tasks i0).length, ts.itemTimeouts⟩ := by
      simp [setup_timeout, hmt]
    rw [heq]
    apply storedInv_arm_menu_aux
    · intro j hc
      obtain ⟨hp, hne⟩ := getTask_cancelTask_pending ts.tasks i0 j _ hc
      have hj := hm j hp
      rw [hmt] at hj
      exact hne (Option.some.inj hj).symm
    · intro j item isM hc
      obtain ⟨hp, -⟩ := getTask_cancelTask_pending ts.tasks i0 j _ hc
      exact hit j item isM hp

theorem storedInv_cancel_timeout (ts : TimeoutState) (h : StoredInv ts) :
    StoredInv (cancel_timeout ts) := by
  obtain ⟨hm, hit⟩ := h
  cases hmt : ts.menuTimeout with
  | none =>
    have heq : cancel_timeout ts = ts := by
      simp [cancel_timeout, hmt]
    rw [heq]
    exact ⟨hm, hit⟩
  | some i0 =>
    cases hgt : getTask ts.tasks i0 with
    | none =>
      have heq : cancel_timeout ts = ts := by
        simp [cancel_timeout, hmt, hgt]
      rw [heq]
      exact ⟨hm, hit⟩
    | some t =>
      obtain ⟨k0, st⟩ := t
      cases st with
      | pending =>
        have heq : cancel_timeout ts
            = ⟨setTask ts.tasks i0 TaskStatus.cancelled, none, ts.itemTimeouts⟩ := by
          simp [cancel_timeout, hmt, hgt]
        rw [heq]
        constructor
        · intro j hj
          by_cases hji : j = i0
          · subst hji
            rw [getTask_setTask_self ts.tasks j TaskStatus.cancelled k0
              TaskStatus.pending hgt] at hj
            simp at hj
          · rw [getTask_setTask_ne ts.tasks i0 j _ (Ne.symm hji)] at hj
            have hj2 := hm j hj
            rw [hmt] at hj2
            exact absurd (Option.some.inj hj2).symm hji
        · intro j item isM hj
          by_cases hji : j = i0
          · subst hji
            rw [getTask_setTask_self ts.tasks j TaskStatus.cancelled k0
              TaskStatus.pending hgt] at hj
            simp at hj
          · rw [getTask_setTask_ne ts.tasks i0 j _ (Ne.symm hji)] at hj
            exact hit j item isM hj
      | fired =>
        have heq : cancel_timeout ts = ts := by
          simp [cancel_timeout, hmt, hgt]
        rw [heq]
        exact ⟨hm, hit⟩
      | cancelled =>
        have heq : cancel_timeout ts = ts := by
          simp [cancel_timeout, hmt, hgt]
        rw [heq]
        exact ⟨hm, hit⟩

theorem storedInv_cancel_item_timeout (ts : TimeoutState) (k : String × Bool)
    (h : StoredInv ts) : StoredInv (cancel_item_timeout ts k) := by
  obtain ⟨hm, hit⟩ := h
  unfold cancel_item_timeout
  cases hl : lookupItem ts.itemTimeouts k with
  | none => exact ⟨hm, hit⟩
  | some i0 =>
    constructor
    · intro j hj
      obtain ⟨hp, -⟩ := getTask_cancelTask_pending ts.tasks i0 j _ hj
      exact hm j hp
    · intro j item isM hj
      obtain ⟨hp, hne⟩ := getTask_cancelTask_pending ts.tasks i0 j _ hj
      have hlk := hit j item isM hp
      by_cases hkk : (item, isM) = k
      · rw [hkk, hl] at hlk
        exact absurd (Option.some.inj hlk).symm hne
      · rw [lookupItem_eraseItemKey_ne ts.itemTimeouts k (item, isM) hkk]
        exact hlk

theorem lookupItem_cancel_item_self (ts : TimeoutState) (k : String × Bool) :
    lookupItem (cancel_item_timeout ts k).itemTimeouts k = none := by
  unfold cancel_item_timeout
  cases hl : lookupItem ts.itemTimeouts k with
  | none => exact hl
  | some i0 => exact lookupItem_eraseItemKey_self _ _

theorem storedInv_arm_item_aux (ts1 : TimeoutState) (k : String × Bool)
    (h : StoredInv ts1) (hnone : lookupItem ts1.itemTimeouts k = none) :
    StoredInv ⟨ts1.tasks ++ [(TKey.itemKey k.1 k.2, TaskStatus.pending)],
      ts1.menuTimeout, ts1.itemTimeouts ++ [(k, ts1.tasks.length)]⟩ := by
  obtain ⟨hm, hit⟩ := h
  constructor
  · intro i hI
    rcases getTask_append_cases ts1.tasks _ i _ hI with hl | ⟨-, hx⟩
    · exact hm i hl
    · simp at hx
  · intro i item isM hI
    rcases getTask_append_cases ts1.tasks _ i _ hI with hl | ⟨hlen, hx⟩
    · exact lookupItem_append_some _ _ _ _ (hit i item isM hl)
    · have hk2 : (item, isM) = k := by
        have hx1 : TKey.itemKey item isM = TKey.itemKey k.1 k.2 := congrArg Prod.fst hx
        cases hx1
        rfl
      rw [hk2, hlen, lookupItem_append_none _ _ _ hnone]
      simp [lookupItem]

theorem storedInv_setup_item_timeout (ts : TimeoutState) (k : String × Bool)
    (h : StoredInv ts) : StoredInv (setup_item_timeout ts k) := by
  have heq : setup_item_timeout ts k
      = ⟨(cancel_item_timeout ts k).tasks ++ [(TKey.itemKey k.1 k.2, TaskStatus.pending)],
          (cancel_item_timeout ts k).menuTimeout,
          (cancel_item_timeout ts k).itemTimeouts
            ++ [(k, (cancel_item_timeout ts k).tasks.length)]⟩ := rfl
  rw [heq]
  exact storedInv_arm_item_aux (cancel_item_timeout ts k) k
    (storedInv_cancel_item_timeout ts k h) (lookupItem_cancel_item_self ts k)

theorem storedInv_fireTask (ts : TimeoutState) (i0 : Nat) (h : StoredInv ts) :
    StoredInv (fireTask ts i0) := by
  obtain ⟨hm, hit⟩ := h
  cases hgt : getTask ts.tasks i0 with
  | none =>
    have heq : fireTask ts i0 = ts := by
      simp [fireTask, hgt]
    rw [heq]
    exact ⟨hm, hit⟩
  | some t =>
    obtain ⟨k0, st⟩ := t
    cases st with
    | pending =>
      have heq : fireTask ts i0
          = ⟨setTask ts.tasks i0 TaskStatus.fired, ts.menuTimeout, ts.itemTimeouts⟩ := by
        simp [fireTask, hgt]
      rw [heq]
      constructor
      · intro j hj
        by_cases hji : j = i0
        · subst hji
          rw [getTask_setTask_self ts.tasks j TaskStatus.fired k0
            TaskStatus.pending hgt] at hj
          simp at hj
        · rw [getTask_setTask_ne ts.tasks i0 j _ (Ne.symm hji)] at hj
          exact hm j hj
      · intro j item isM hj
        by_cases hji : j = i0
        · subst hji
          rw [getTask_setTask_self ts.tasks j TaskStatus.fired k0
            TaskStatus.pending hgt] at hj
          simp at hj
        · rw [getTask_setTask_ne ts.tasks i0 j _ (Ne.symm hji)] at hj
          exact hit j item isM hj
    | fired =>
      have heq : fireTask ts i0 = ts := by
        simp [fireTask, hgt]
      rw [heq]
      exact ⟨hm, hit⟩
    | cancelled =>
      have heq : fireTask ts i0 = ts := by
        simp [fireTask, hgt]
      rw [heq]
      exact ⟨hm, hit⟩

theorem storedInv_applyTOp (ts : TimeoutState) (op : TimeoutOp) (h : StoredInv ts) :
    StoredInv (applyTOp ts op) := by
  cases op with
  | armMenu => exact storedInv_setup_timeout ts h
  | disarmMenu => exact storedInv_cancel_timeout ts h
  | armItem k => exact storedInv_setup_item_timeout ts k h
  | disarmItem k => exact storedInv_cancel_item_timeout ts k h
  | fire i => exact storedInv_fireTask ts i h

theorem storedInv_applyTOps :
    ∀ (ops : List TimeoutOp) (ts : TimeoutState), StoredInv ts →
      StoredInv (applyTOps ts ops) := by
  intro ops
  induction ops with
  | nil => intro ts h; simpa [applyTOps] using h
  | cons op rest ih =>
    intro ts h
    simpa [applyTOps, List.foldl_cons] using
      ih (applyTOp ts op) (storedInv_applyTOp ts op h)

/-- Claim C7: starting from the empty timeout state, after any sequence of
arm/disarm/fire events, at most one pending deferred task exists per
timeout key: any two pending tasks with the same key are the same task.
Arming always cancels the prior still-pending task for its key first
(`setup_timeout` / `setup_item_timeout` via `cancelTask`). -/
theorem timeout_at_most_one_pending (ops : List TimeoutOp) (i j : Nat) (k : TKey)
    (hi : getTask (applyTOps emptyTimeouts ops).tasks i
        = some (k, TaskStatus.pending))
    (hj : getTask (applyTOps emptyTimeouts ops).tasks j
        = some (k, TaskStatus.pending)) : i = j := by
  have h := storedInv_applyTOps ops emptyTimeouts storedInv_empty
  cases k with
  | menuKey =>
    have h1 := h.1 i hi
    have h2 := h.1 j hj
    exact Option.some.inj (h1.symm.trans h2)
  | itemKey item isM =>
    have h1 := h.2 i item isM hi
    have h2 := h.2 j item isM hj
    exact Option.some.inj (h1.symm.trans h2)

theorem timeout_at_most_one_pending_witness :
    (getTask (applyTOps emptyTimeouts [TimeoutOp.armMenu]).tasks 0
        = some (TKey.menuKey, TaskStatus.pending) ∧
      getTask (applyTOps emptyTimeouts [TimeoutOp.armMenu]).tasks 0
        = some (TKey.menuKey, TaskStatus.pending)) ∧
    (0 : Nat) = 0 :=
  ⟨⟨rfl, rfl⟩, timeout_at_most_one_pending [TimeoutOp.armMenu] 0 0 TKey.menuKey rfl rfl⟩

/-- Claim C8 counterexample: with no selector supplied, the cancel-timer
handler does not raise an InvalidArgumentError-style exception; it returns
the structured error response instead. -/
theorem cancel_timer_no_selector_counterexample :
    async_handle_cancel_timer none none none false
        = CancelTimerOutcome.errorResponse "no attribute supplied" ∧
    async_handle_cancel_timer none none none false
        ≠ CancelTimerOutcome.raisedError "InvalidArgumentError" := by decide

/-- Claim C8 (amended): with no selector supplied, the handler returns the
error response {"error": "no attribute supplied"} without invoking the
timer engine — so no timer's state is changed and no exception reaches the
caller. -/
theorem cancel_timer_no_selector_amended :
    async_handle_cancel_timer none none none false
        = CancelTimerOutcome.errorResponse "no attribute supplied" ∧
    ∀ (tid dev : Option String) (ca : Bool),
      async_handle_cancel_timer none none none false
        ≠ CancelTimerOutcome.engineCall tid dev ca := by
  refine ⟨rfl, ?_⟩
  intro tid dev ca hc
  cases hc

/-- Claim C9: while the menu manager is initialized, the toggle_menu
service handler builds four positional arguments but
`MenuManager.toggle_menu` accepts at most three (entity_id, show, timeout),
so every such call raises TypeError and leaves the menu state unchanged. -/
theorem toggle_menu_service_type_error (cfg : VAConfig) (view : Option String)
    (s : MenuState) (entity_id : String) (shw : Bool)
    (menu_items : Option (List String)) (timeout : Option Int) :
    (toggleMenuCallArgs entity_id shw menu_items timeout).length = 4 ∧
    toggleMenuSig.params.length = 3 ∧
    async_handle_toggle_menu cfg view true s entity_id shw menu_items timeout
        = (MenuServiceOutcome.typeErrorRaised, s) := by
  refine ⟨rfl, rfl, ?_⟩
  simp [async_handle_toggle_menu, toggleMenuSig, PyMethodSig.acceptsArgCount,
    toggleMenuCallArgs]

/-- Claim C10: while the menu manager is initialized, the add_menu_item
service handler passes (entity_id, menu_item, timeout) positionally, so the
caller's timeout binds to the boolean `menu` parameter (by truthiness) and
the method's own timeout stays None: the handler call equals
`add_menu_item` with `menu := truthiness of timeout` and `timeout := none`;
a truthy timeout therefore routes the item into configured_items, and no
per-item auto-remove timeout is ever armed through this service. -/
theorem add_menu_item_service_binds_timeout_to_menu (cfg : VAConfig) (s : MenuState)
    (menu_item : String) (timeout : Option Int) :
    (async_handle_add_menu_item cfg true s menu_item timeout).2
        = add_menu_item cfg s [menu_item] (pyTruthy timeout) none ∧
    (async_handle_add_menu_item cfg true s menu_item timeout).2.armed = [] ∧
    (pyTruthy timeout = true →
      menu_item ∈ (async_handle_add_menu_item cfg true s menu_item
        timeout).2.state.configured_items) := by
  have harm : (add_menu_item cfg s [menu_item] (pyTruthy timeout) none).armed = [] := by
    simp only [add_menu_item]
    have hne : ¬([menu_item] = ([] : List String)) := by simp
    simp only [if_neg hne, Option.isSome_none, Bool.false_eq_true, if_false]
    cases pyTruthy timeout with
    | true =>
      simp only [if_true]
      cases hr : (appendMissingGo s.configured_items false [menu_item]).2 with
      | true =>
        simp only [if_true]
        cases s.active <;> simp
      | false => simp
    | false =>
      simp only [Bool.false_eq_true, if_false]
      cases hr : (addStatusIcons cfg.show_menu_button s.status_icons [menu_item]).2 <;>
        simp
  have hhandler : (async_handle_add_menu_item cfg true s menu_item timeout).2
      = add_menu_item cfg s [menu_item] (pyTruthy timeout) none := by
    simp [async_handle_add_menu_item, addMenuItemSig, PyMethodSig.acceptsArgCount]
  refine ⟨hhandler, by rw [hhandler]; exact harm, ?_⟩
  intro ht
  rw [hhandler]
  simp only [add_menu_item]
  have hne : ¬([menu_item] = ([] : List String)) := by simp
  simp only [if_neg hne, ht, if_true]
  cases hr : (appendMissingGo s.configured_items false [menu_item]).2 with
  | true =>
    cases s.active with
    | true =>
      simp only [if_true]
      exact mem_appendMissingGo_arg [menu_item] s.configured_items false (by simp)
    | false =>
      simp only [Bool.false_eq_true, if_false, if_true]
      exact mem_appendMissingGo_arg [menu_item] s.configured_items false (by simp)
  | false =>
    simp only [Bool.false_eq_true, if_false]
    have hfst := appendMissingGo_fst_of_not_changed [menu_item] s.configured_items hr
    have hmm : menu_item ∈ (appendMissingGo s.configured_items false [menu_item]).1 :=
      mem_appendMissingGo_arg [menu_item] s.configured_items false (by simp)
    rw [hfst] at hmm
    exact hmm

theorem add_menu_item_service_binds_timeout_to_menu_witness :
    pyTruthy (some 5) = true ∧
    "tools" ∈ (async_handle_add_menu_item ⟨true, true⟩ true freshMenuState
        "tools" (some 5)).2.state.configured_items :=
  ⟨by decide,
    (add_menu_item_service_binds_timeout_to_menu ⟨true, true⟩ freshMenuState
      "tools" (some 5)).2.2 (by decide)⟩
